import Mathlib

/-!
Verification development for the Expense3 repository.

The two algorithmic cores are embedded here from the JavaScript sources:

* the field-extraction pipeline (`processReceiptOCR` in the receipts route,
  `src/unnamed/part_001`): amount strategies 1-10, date strategies 1-6 and
  merchant extraction, together with the small regex machinery they rely on;
* the match-scoring engine (`findPotentialMatches`, identical copies in
  `src/backend/routes/matches.js` and `src/unnamed/part_001`) and the
  auto-match policy built on top of it.

JavaScript numbers that hold monetary values are modelled as rationals (`ℚ`),
integer ids as `ℤ`, nullable columns as `Option`.  JavaScript regular
expressions are modelled by a small backtracking matcher (`matchRE`) that
follows the ECMAScript semantics relevant here: leftmost match, greedy
quantifiers with backtracking, alternatives tried left to right, a repetition
iteration that consumes nothing terminates the loop.  Each concrete regex of
the source is transcribed into this syntax next to the strategy that uses it.
-/

namespace Expense3

/-! ### JavaScript string primitives -/

/-- Digit test, the `\d` / `[0-9]` class. -/
def isDig (c : Char) : Bool := '0' ≤ c && c ≤ '9'

/-- The ECMAScript `\s` class restricted to the ASCII whitespace characters
that can occur in the extracted texts (space, tab, LF, CR, VT, FF). -/
def jsWs (c : Char) : Bool :=
  c = ' ' || c = '\t' || c = '\n' || c = '\r' || c = '\x0b' || c = '\x0c'

/-- `String.prototype.trim`. -/
def jsTrim (s : String) : String :=
  String.mk (((s.toList.dropWhile jsWs).reverse.dropWhile jsWs).reverse)

/-- `String.prototype.toLowerCase` (ASCII). -/
def jsToLower (s : String) : String := String.mk (s.toList.map Char.toLower)

/-- Splitting on a single separator character, keeping empty pieces, as
`String.prototype.split('\n')` does. -/
def splitOnCharAux (sep : Char) : List Char → List Char → List String
  | [], cur => [String.mk cur.reverse]
  | c :: rest, cur =>
    if c = sep then String.mk cur.reverse :: splitOnCharAux sep rest []
    else splitOnCharAux sep rest (c :: cur)

/-- `text.split('\n')`. -/
def linesOf (s : String) : List String := splitOnCharAux '\n' s.toList []

/-- `String.prototype.split(/\s+/)`: separators are maximal whitespace runs;
a leading or trailing run contributes an empty piece, exactly as in JS.
The first argument is `true` while a separator run is being skipped. -/
def splitWsAux : Bool → List Char → List Char → List String
  | false, [], cur => [String.mk cur.reverse]
  | false, c :: rest, cur =>
    if jsWs c then String.mk cur.reverse :: splitWsAux true rest []
    else splitWsAux false rest (c :: cur)
  | true, [], _ => [""]
  | true, c :: rest, cur =>
    if jsWs c then splitWsAux true rest cur
    else splitWsAux false rest [c]

/-- `merchant.split(/\s+/)`. -/
def jsSplitWs (s : String) : List String := splitWsAux false s.toList []

/-- `pat` is a prefix of `l` (character-exact). -/
def prefixCS : List Char → List Char → Bool
  | [], _ => true
  | _ :: _, [] => false
  | a :: as, b :: bs => a = b && prefixCS as bs

/-- `String.prototype.includes`: `needle` occurs as a contiguous substring of
`hay`. -/
def containsSub (hay needle : List Char) : Bool :=
  match hay with
  | [] => needle.isEmpty
  | _ :: t => prefixCS needle hay || containsSub t needle

/-! ### A backtracking regex matcher (ECMAScript semantics)

`bos`/`eos` are the `^`/`$` anchors (no `m` flag is used anywhere in the
source, so they mean start/end of the whole string).  `cls` is a character
class given by its predicate.  Alternatives are tried left to right, `star`
and `optr` are greedy.  The matcher is written in continuation-passing style;
the continuation receives a flag telling whether the position is still the
start of the string, plus the remaining suffix. -/

inductive RE where
  | eps
  | bos
  | eos
  | cls (p : Char → Bool)
  | seqr (a b : RE)
  | altr (a b : RE)
  | star (a : RE)
  | optr (a : RE)

/-- Greedy Kleene-star loop.  `step` is the matcher of the body.  An
iteration that consumes no input is rejected (the inner `if`), which is the
ECMAScript `RepeatMatcher` rule and also bounds the number of iterations by
the input length, so the fuel `s.length + 1` supplied by `matchRE` can never
run out. -/
def starLoop
    (step : Bool → List Char → (Bool → List Char → Option (List Char)) → Option (List Char)) :
    Nat → Bool → List Char → (Bool → List Char → Option (List Char)) → Option (List Char)
  | 0, st, s, k => k st s
  | n + 1, st, s, k =>
    (step st s (fun st' s' =>
      if s'.length < s.length then starLoop step n st' s' k else none)) <|> k st s

/-- The backtracking matcher.  `matchRE r st s k` tries to match `r` at the
current position (`st` = "still at string start", `s` = remaining input) and
runs the continuation `k` on every candidate end position, in the order the
ECMAScript engine would try them, returning the first success. -/
def matchRE : RE → Bool → List Char → (Bool → List Char → Option (List Char)) → Option (List Char)
  | .eps, st, s, k => k st s
  | .bos, st, s, k => if st then k st s else none
  | .eos, st, s, k => if s.isEmpty then k st s else none
  | .cls p, _, s, k =>
    match s with
    | [] => none
    | c :: s' => if p c then k false s' else none
  | .seqr a b, st, s, k => matchRE a st s (fun st' s' => matchRE b st' s' k)
  | .altr a b, st, s, k => (matchRE a st s k) <|> (matchRE b st s k)
  | .optr a, st, s, k => (matchRE a st s k) <|> k st s
  | .star a, st, s, k => starLoop (matchRE a) (s.length + 1) st s k

/-- Length of the match of `r` at the current position, if any. -/
def matchLen (r : RE) (st : Bool) (s : List Char) : Option Nat :=
  match matchRE r st s (fun _ s' => some s') with
  | some s' => some (s.length - s'.length)
  | none => none

/-- Leftmost match: offset (from the current position) and length. -/
def findFromAux (r : RE) : List Char → Bool → Option (Nat × Nat)
  | [], st =>
    match matchLen r st [] with
    | some len => some (0, len)
    | none => none
  | c :: s', st =>
    match matchLen r st (c :: s') with
    | some len => some (0, len)
    | none => (findFromAux r s' false).map (fun p => (p.1 + 1, p.2))

/-- `regex.test(s)`. -/
def reTest (r : RE) (s : String) : Bool := (findFromAux r s.toList true).isSome

/-- `s.match(regex)` without the `g` flag: the leftmost matched substring. -/
def firstMatchStr (r : RE) (s : List Char) : Option (List Char) :=
  (findFromAux r s true).map (fun p => (s.drop p.1).take p.2)

/-- `s.match(regex)` with the `g` flag: successive non-overlapping leftmost
matches; a zero-length match advances the scan position by one
(`AdvanceStringIndex`).  The fuel `s.length + 1` never runs out because each
round drops at least one character of the remaining input (or ends). -/
def allMatchesAux (r : RE) : Nat → List Char → Bool → List (List Char)
  | 0, _, _ => []
  | fuel + 1, s, st =>
    match findFromAux r s st with
    | none => []
    | some (o, len) =>
      let m := (s.drop o).take len
      let adv := o + (if len = 0 then 1 else len)
      m :: allMatchesAux r fuel (s.drop adv) false

/-- `s.match(regex)` with the `g` flag (list of full-match strings). -/
def allMatchesG (r : RE) (s : List Char) : List (List Char) :=
  allMatchesAux r (s.length + 1) s true

/-! ### Regex construction helpers -/

/-- A literal character, case-sensitive. -/
def chC (c : Char) : RE := .cls (fun a => a = c)

/-- A literal character under the `i` flag. -/
def chI (c : Char) : RE := .cls (fun a => a.toLower = c.toLower)

/-- A case-sensitive literal string. -/
def strC (w : String) : RE := w.toList.foldr (fun c r => .seqr (chC c) r) .eps

/-- A literal string under the `i` flag. -/
def strI (w : String) : RE := w.toList.foldr (fun c r => .seqr (chI c) r) .eps

/-- Concatenation of a list of regexes. -/
def catr (l : List RE) : RE := l.foldr .seqr .eps

/-- Ordered alternation of a list of regexes (first alternative preferred). -/
def orr : List RE → RE
  | [] => .cls (fun _ => false)
  | [r] => r
  | r :: rest => .altr r (orr rest)

def digitRE : RE := .cls isDig

def wsRE : RE := .cls jsWs

def wsStar : RE := .star wsRE

def wsPlus : RE := .seqr wsRE (.star wsRE)

/-- `r+`. -/
def plusOf (r : RE) : RE := .seqr r (.star r)

/-- `r{0,n}` (greedy). -/
def upto : Nat → RE → RE
  | 0, _ => .eps
  | n + 1, r => .seqr (.optr r) (upto n r)

/-- `\d{1,2}` (greedy). -/
def digit12 : RE := .seqr digitRE (.optr digitRE)

/-- `\d{2,4}` (greedy). -/
def digit24 : RE := catr [digitRE, digitRE, .optr digitRE, .optr digitRE]

/-- `\d{4}`. -/
def digit4 : RE := catr [digitRE, digitRE, digitRE, digitRE]

/-! ### Amount extraction (strategies 1-10 of `processReceiptOCR`) -/

/-- Value of a digit string. -/
def digitsToNat (l : List Char) : Nat := l.foldl (fun n c => 10 * n + (c.toNat - 48)) 0

/-- Model of `parseFloat` on the cleaned amount strings handled by the
pipeline (optional sign, integer digits, optional `.` and fraction digits;
trailing garbage ignored; `none` models `NaN`).  The cleaned strings contain
only digits, `.` and `,`, so the exponent forms of full `parseFloat` cannot
occur. -/
def jsParseFloat (l : List Char) : Option ℚ :=
  let sgn : Int := match l with | '-' :: _ => -1 | _ => 1
  let l1 := match l with | '-' :: r => r | '+' :: r => r | _ => l
  let ip := l1.takeWhile isDig
  let rest := l1.dropWhile isDig
  let fp := match rest with | '.' :: r => r.takeWhile isDig | _ => []
  if ip.isEmpty && fp.isEmpty then none
  else
    some (mkRat (sgn * (digitsToNat ip * 10 ^ fp.length + digitsToNat fp)) (10 ^ fp.length))

/-- The test `/,\d{2}$/`: a comma followed by exactly two digits at the end. -/
def commaDecimalEnd (l : List Char) : Bool :=
  match l.reverse with
  | a :: b :: c :: _ => isDig a && isDig b && c = ','
  | _ => false

/-- `String.prototype.replace(',', '.')`: first occurrence only. -/
def replaceFirstComma : List Char → List Char
  | [] => []
  | c :: r => if c = ',' then '.' :: r else c :: replaceFirstComma r

/-- The pipeline's `parseAmount` helper: strip currency symbols and
whitespace, treat a trailing `,dd` as a decimal separator (European style),
otherwise drop commas as thousands separators, then `parseFloat`. -/
def parseAmount (s : List Char) : Option ℚ :=
  let cleaned := s.filter (fun c => !(c = '$' || c = '€' || c = '£' || c = '¥' || jsWs c))
  let cleaned2 :=
    if commaDecimalEnd cleaned then replaceFirstComma cleaned
    else cleaned.filter (fun c => c ≠ ',')
  jsParseFloat cleaned2

/-- `match.replace(/^[0-9,]*/ complement, '')`, i.e. the source's
`replace(/^[^0-9,]*/, '')`: drop the maximal leading run of characters that
are neither digits nor commas. -/
def stripLeadNonNum (m : List Char) : List Char :=
  m.dropWhile (fun c => !(isDig c || c = ','))

/-- The running `amountBreakdown` record of the pipeline. -/
structure AmountBreakdown where
  subtotal : Option ℚ
  tax : Option ℚ
  total : Option ℚ
  grandTotal : Option ℚ
  deriving DecidableEq

/-- The empty breakdown the pipeline starts from. -/
def emptyBreakdown : AmountBreakdown := ⟨none, none, none, none⟩

/-- JS truthiness of a stored amount (`null` and `0` are falsy). -/
def qTruthy : Option ℚ → Bool
  | none => false
  | some q => q ≠ 0

/-- The shared loop of the label strategies: walk the full-match list, strip
the leading non-numeric part, parse, and keep the first amount in range
(`break`); invalid candidates are skipped and the loop continues. -/
def firstValidAmount (ms : List (List Char)) (ok : ℚ → Bool) : Option ℚ :=
  match ms with
  | [] => none
  | m :: rest =>
    match parseAmount (stripLeadNonNum m) with
    | some a => if ok a then some a else firstValidAmount rest ok
    | none => firstValidAmount rest ok

/-- The main sanity bound: `amount > 0 && amount < 50000`. -/
def mainRange (a : ℚ) : Bool := decide (0 < a ∧ a < 50000)

/-- The tax bound: `amount >= 0 && amount < 10000`. -/
def taxRange (a : ℚ) : Bool := decide (0 ≤ a ∧ a < 10000)

/-- `([0-9,]+\.?\d{0,2})`. -/
def amtNum : RE := catr [plusOf (.cls (fun c => isDig c || c = ',')), .optr (chC '.'), upto 2 digitRE]

/-- `([0-9,]+\.?\d{2})` (exactly two final digits required). -/
def amtNum2 : RE := catr [plusOf (.cls (fun c => isDig c || c = ',')), .optr (chC '.'), digitRE, digitRE]

/-- The class `[\s:$€£¥]`. -/
def sepCls : RE := .cls (fun c => jsWs c || c = ':' || c = '$' || c = '€' || c = '£' || c = '¥')

/-- The class `[\s:]`. -/
def wsColonCls : RE := .cls (fun c => jsWs c || c = ':')

/-- Strategy 1 regex:
`/(?:payment|payment\s*amount|monthly\s*charge|service\s*charge|bill\s*amount|charge|amount|total\s*charges)(?:\s*USD\s*|\s*[\s:$€£¥]*)?([0-9,]+\.?\d{0,2})/gi`. -/
def paymentRE : RE :=
  catr [
    orr [strI "payment",
         catr [strI "payment", wsStar, strI "amount"],
         catr [strI "monthly", wsStar, strI "charge"],
         catr [strI "service", wsStar, strI "charge"],
         catr [strI "bill", wsStar, strI "amount"],
         strI "charge", strI "amount",
         catr [strI "total", wsStar, strI "charges"]],
    .optr (.altr (catr [wsStar, strI "usd", wsStar]) (catr [wsStar, .star sepCls])),
    amtNum]

/-- Strategy 1b regex:
`/(?:payment|total\s*charges|subtotal|total\s*tax)USD\s*([0-9,]+\.?\d{0,2})/gi`. -/
def usdRE : RE :=
  catr [
    orr [strI "payment",
         catr [strI "total", wsStar, strI "charges"],
         strI "subtotal",
         catr [strI "total", wsStar, strI "tax"]],
    strI "usd", wsStar, amtNum]

/-- `/^total\s*$/` (applied to the already trimmed, lowercased line). -/
def lineTotalRE : RE := catr [.bos, strC "total", wsStar, .eos]

/-- `/^\$([0-9,]+\.?\d{0,2})$/` for the line after a bare `total` line. -/
def nextAmountRE : RE := catr [.bos, chC '$', amtNum, .eos]

/-- Strategy 3 regex:
`/(?:grand\s*total|final\s*total|total\s*amount|amount\s*due)[\s:$€£¥]*([0-9,]+\.?\d{0,2})/gi`. -/
def grandTotalRE : RE :=
  catr [
    orr [catr [strI "grand", wsStar, strI "total"],
         catr [strI "final", wsStar, strI "total"],
         catr [strI "total", wsStar, strI "amount"],
         catr [strI "amount", wsStar, strI "due"]],
    .star sepCls, amtNum]

/-- Strategy 4 regex: `/(?:^|\s|:)total[\s:$€£¥]*([0-9,]+\.?\d{0,2})/gi`. -/
def totalRE : RE :=
  catr [orr [.bos, wsRE, chC ':'], strI "total", .star sepCls, amtNum]

/-- Strategy 5 regex: `/(?:sub\s*total|subtotal)[\s:$€£¥]*([0-9,]+\.?\d{0,2})/gi`. -/
def subtotalRE : RE :=
  catr [orr [catr [strI "sub", wsStar, strI "total"], strI "subtotal"], .star sepCls, amtNum]

/-- Strategy 6 regex: `/(?:tax|vat|gst)[\s:$€£¥]*([0-9,]+\.?\d{0,2})/gi`. -/
def taxRE : RE :=
  catr [orr [strI "tax", strI "vat", strI "gst"], .star sepCls, amtNum]

/-- Strategy 7 regex: `/\$[\s]*([0-9,]+\.?\d{0,2})/g`. -/
def currencyRE : RE := catr [chC '$', wsStar, amtNum]

/-- Strategy 8 regex: `/^[\$]?([0-9,]+\.?\d{2})$/` on a trimmed line. -/
def standaloneRE : RE := catr [.bos, .optr (chC '$'), amtNum2, .eos]

/-- Strategy 9 regex:
`/(?:balance\s*due|amount\s*owed|amount\s*payable|invoice\s*amount)[\s:$€£¥]*([0-9,]+\.?\d{0,2})/gi`. -/
def balanceRE : RE :=
  catr [
    orr [catr [strI "balance", wsStar, strI "due"],
         catr [strI "amount", wsStar, strI "owed"],
         catr [strI "amount", wsStar, strI "payable"],
         catr [strI "invoice", wsStar, strI "amount"]],
    .star sepCls, amtNum]

/-- Strategy 10 billing-context test: `/bill|invoice|charge|amount|payment/i`. -/
def billingKwRE : RE :=
  orr [strI "bill", strI "invoice", strI "charge", strI "amount", strI "payment"]

/-- Strategy 10 amount pattern: `/([0-9,]+\.?\d{2})/` (first match). -/
def flexAmtRE : RE := amtNum2

/-- Group 1 of an anchored `^\$?(...)$` match: the match minus an optional
leading dollar sign. -/
def stripDollar : List Char → List Char
  | '$' :: r => r
  | l => l

/-- `match.replace(/^\$\s*/, '')` for strategy 7 matches (which always start
with `$`). -/
def stripDollarWsPrefix : List Char → List Char
  | '$' :: r => r.dropWhile jsWs
  | l => l

/-- Strategy 1: payment/charge labels; first valid amount becomes the total. -/
def applyS1 (s : String) (bd : AmountBreakdown) : AmountBreakdown :=
  match firstValidAmount (allMatchesG paymentRE s.toList) mainRange with
  | some a => { bd with total := some a }
  | none => bd

/-- Strategy 1b: concatenated `...USD` labels, only if no total yet. -/
def applyS1b (s : String) (bd : AmountBreakdown) : AmountBreakdown :=
  if qTruthy bd.total then bd
  else
    match firstValidAmount (allMatchesG usdRE s.toList) mainRange with
    | some a => { bd with total := some a }
    | none => bd

/-- Strategy 2's scan over consecutive line pairs (`prev` is line `i`, the
head of the second argument is line `i + 1`): a line that is just `total`
followed by a line that is just a dollar amount.  A pair whose amount fails
to parse or is out of range does not stop the scan. -/
def multiLineScanAux : String → List String → Option ℚ
  | _, [] => none
  | prev, l2 :: rest =>
    let cur := jsToLower (jsTrim prev)
    let nxt := jsTrim l2
    if reTest lineTotalRE cur then
      match (if reTest nextAmountRE nxt then parseAmount (stripDollar nxt.toList) else none) with
      | some a => if mainRange a then some a else multiLineScanAux l2 rest
      | none => multiLineScanAux l2 rest
    else multiLineScanAux l2 rest

/-- Strategy 2's scan over the whole line list. -/
def multiLineTotalScan : List String → Option ℚ
  | [] => none
  | l1 :: rest => multiLineScanAux l1 rest

/-- Strategy 2: the multi-line total.  Note: it runs unconditionally and
overwrites any total set by strategies 1/1b. -/
def applyS2 (s : String) (bd : AmountBreakdown) : AmountBreakdown :=
  match multiLineTotalScan (linesOf s) with
  | some a => { bd with total := some a }
  | none => bd

/-- Strategy 3: grand total / final total / amount due. -/
def applyS3 (s : String) (bd : AmountBreakdown) : AmountBreakdown :=
  match firstValidAmount (allMatchesG grandTotalRE s.toList) mainRange with
  | some a => { bd with grandTotal := some a }
  | none => bd

/-- Strategy 4: bare `total` label, only if neither grand total nor total is
set. -/
def applyS4 (s : String) (bd : AmountBreakdown) : AmountBreakdown :=
  if qTruthy bd.grandTotal || qTruthy bd.total then bd
  else
    match firstValidAmount (allMatchesG totalRE s.toList) mainRange with
    | some a => { bd with total := some a }
    | none => bd

/-- Strategy 5: subtotal (unconditional). -/
def applyS5 (s : String) (bd : AmountBreakdown) : AmountBreakdown :=
  match firstValidAmount (allMatchesG subtotalRE s.toList) mainRange with
  | some a => { bd with subtotal := some a }
  | none => bd

/-- Strategy 6: tax/VAT/GST (unconditional; wider range, zero allowed). -/
def applyS6 (s : String) (bd : AmountBreakdown) : AmountBreakdown :=
  match firstValidAmount (allMatchesG taxRE s.toList) taxRange with
  | some a => { bd with tax := some a }
  | none => bd

/-- Strategy 7's inner loop: largest in-range dollar-prefixed amount. -/
def bestCurrencyAmount (t : List Char) : Option ℚ :=
  (allMatchesG currencyRE t).foldl
    (fun acc m =>
      match parseAmount (stripDollarWsPrefix m) with
      | some a =>
        if mainRange a then
          match acc with
          | none => some a
          | some b => if b < a then some a else acc
        else acc
      | none => acc)
    none

/-- Strategy 7: fallback to the largest `$`-amount, only if no total and no
grand total. -/
def applyS7 (s : String) (bd : AmountBreakdown) : AmountBreakdown :=
  if qTruthy bd.total || qTruthy bd.grandTotal then bd
  else
    match bestCurrencyAmount s.toList with
    | some a => { bd with total := some a }
    | none => bd

/-- Strategy 8's scan: a line that is exactly an (optionally `$`-prefixed)
amount. -/
def standaloneScan : List String → Option ℚ
  | [] => none
  | l :: rest =>
    let tr := jsTrim l
    if reTest standaloneRE tr then
      match parseAmount (stripDollar tr.toList) with
      | some a => if mainRange a then some a else standaloneScan rest
      | none => standaloneScan rest
    else standaloneScan rest

/-- Strategy 8: standalone amount lines, only if no total and no grand
total. -/
def applyS8 (s : String) (bd : AmountBreakdown) : AmountBreakdown :=
  if qTruthy bd.total || qTruthy bd.grandTotal then bd
  else
    match standaloneScan (linesOf s) with
    | some a => { bd with total := some a }
    | none => bd

/-- Strategy 9: balance due / amount owed labels, only if no total and no
grand total. -/
def applyS9 (s : String) (bd : AmountBreakdown) : AmountBreakdown :=
  if qTruthy bd.total || qTruthy bd.grandTotal then bd
  else
    match firstValidAmount (allMatchesG balanceRE s.toList) mainRange with
    | some a => { bd with total := some a }
    | none => bd

/-- Strategy 10's scan: once a line has matched a billing keyword, take the
first two-decimal number with value `> 1` on that or a later line. -/
def billingScan : List String → Bool → Option ℚ
  | [], _ => none
  | l :: rest, found =>
    let line := jsTrim l
    let found' := found || reTest billingKwRE line
    if found' then
      match firstMatchStr flexAmtRE line.toList with
      | some m =>
        match parseAmount m with
        | some a => if decide (1 < a ∧ a < 50000) then some a else billingScan rest found'
        | none => billingScan rest found'
      | none => billingScan rest found'
    else billingScan rest found'

/-- Strategy 10: billing-context fallback, only if no total and no grand
total. -/
def applyS10 (s : String) (bd : AmountBreakdown) : AmountBreakdown :=
  if qTruthy bd.total || qTruthy bd.grandTotal then bd
  else
    match billingScan (linesOf s) false with
    | some a => { bd with total := some a }
    | none => bd

/-- All amount strategies in source order. -/
def runAmountStrategies (s : String) : AmountBreakdown :=
  applyS10 s (applyS9 s (applyS8 s (applyS7 s (applyS6 s (applyS5 s
    (applyS4 s (applyS3 s (applyS2 s (applyS1b s (applyS1 s emptyBreakdown))))))))))

/-- `amountBreakdown.grandTotal || amountBreakdown.total ||
amountBreakdown.subtotal`. -/
def selectAmount (bd : AmountBreakdown) : Option ℚ :=
  if qTruthy bd.grandTotal then bd.grandTotal
  else if qTruthy bd.total then bd.total
  else bd.subtotal

/-! ### Date extraction (`dateStrategies` of `processReceiptOCR`) -/

/-- The class `[a-z]` under the `i` flag. -/
def alphaCI : RE := .cls (fun c => ('a' ≤ c && c ≤ 'z') || ('A' ≤ c && c ≤ 'Z'))

/-- `([a-z]+\s+\d{1,2},?\s+\d{4})` under the `i` flag (written dates). -/
def writtenDatePat : RE :=
  catr [plusOf alphaCI, wsPlus, digit12, .optr (chC ','), wsPlus, digit4]

/-- `(\d{1,2}[\/\-]\d{1,2}[\/\-]\d{2,4})` (numeric dates). -/
def numericDatePat : RE :=
  catr [digit12, .cls (fun c => c = '/' || c = '-'), digit12,
        .cls (fun c => c = '/' || c = '-'), digit24]

/-- Date strategy 1: `/(?:invoice\s*date|bill\s*date|date\s*paid)[\s:]*([a-z]+\s+\d{1,2},?\s+\d{4})/gi`. -/
def d1RE : RE :=
  catr [
    orr [catr [strI "invoice", wsStar, strI "date"],
         catr [strI "bill", wsStar, strI "date"],
         catr [strI "date", wsStar, strI "paid"]],
    .star wsColonCls, writtenDatePat]

/-- Date strategy 2: `/date\s*paid\s*([a-z]+\s+\d{1,2},?\s+\d{4})/gi`. -/
def d2RE : RE := catr [strI "date", wsStar, strI "paid", wsStar, writtenDatePat]

/-- Date strategy 2b: `/date\s+paid([a-z]+\s+\d{1,2},?\s+\d{4})/gi`. -/
def d2bRE : RE := catr [strI "date", wsPlus, strI "paid", writtenDatePat]

/-- Date strategy 3: `/(?:invoice\s*date|bill\s*date|date)[\s:]*(\d{1,2}[\/\-]\d{1,2}[\/\-]\d{2,4})/gi`. -/
def d3RE : RE :=
  catr [
    orr [catr [strI "invoice", wsStar, strI "date"],
         catr [strI "bill", wsStar, strI "date"],
         strI "date"],
    .star wsColonCls, numericDatePat]

/-- Date strategy 4: `/(?:due\s*date|payment\s*due)[\s:]*([a-z]+\s+\d{1,2},?\s+\d{4}|\d{1,2}[\/\-]\d{1,2}[\/\-]\d{2,4})/gi`. -/
def d4RE : RE :=
  catr [
    orr [catr [strI "due", wsStar, strI "date"],
         catr [strI "payment", wsStar, strI "due"]],
    .star wsColonCls, .altr writtenDatePat numericDatePat]

/-- Date strategy 5: `/(\d{1,2}[\/\-]\d{1,2}[\/\-]\d{2,4})/g`. -/
def d5RE : RE := numericDatePat

/-- The English month names, in order. -/
def monthNames : List String :=
  ["january", "february", "march", "april", "may", "june", "july",
   "august", "september", "october", "november", "december"]

/-- Date strategy 6: `/((?:january|...|december)\s+\d{1,2},?\s+\d{4})/gi`. -/
def d6RE : RE :=
  catr [orr (monthNames.map strI), wsPlus, digit12, .optr (chC ','), wsPlus, digit4]

/-- The ordered strategy list `dateStrategies`. -/
def dateStrategyREs : List RE := [d1RE, d2RE, d2bRE, d3RE, d4RE, d5RE, d6RE]

/-- Month number of a leading word, following the V8 `Date` parser, which
compares only the first three letters of a word against the month table
(hence `"july"` is July, while `"paidjuly"` starts with `"pai"` and is no
month at all). -/
def monthFromWord (w : List Char) : Option Nat :=
  if w.length < 3 then none
  else
    let pre := (w.map Char.toLower).take 3
    (monthNames.findIdx? (fun nm => nm.toList.take 3 = pre)).map (· + 1)

/-- Zero-padded two-digit rendering (`padStart(2, '0')`). -/
def pad2 (n : Nat) : String := if n < 10 then "0" ++ toString n else toString n

/-- Model of `new Date(str)` on a written-date candidate
`<word> <day>[,] <year>` followed by the pipeline's
`MM/DD/YYYY` formatting; `none` models an invalid date, which the pipeline
treats as "no match, keep searching". -/
def jsWrittenToMDY (wds : List Char) : Option String :=
  let word := wds.takeWhile (fun c => ('a' ≤ c && c ≤ 'z') || ('A' ≤ c && c ≤ 'Z'))
  let rest1 := (wds.dropWhile (fun c => ('a' ≤ c && c ≤ 'z') || ('A' ≤ c && c ≤ 'Z'))).dropWhile jsWs
  let dayDs := rest1.takeWhile isDig
  let rest2 := rest1.dropWhile isDig
  let rest3 := (match rest2 with | ',' :: r => r | r => r).dropWhile jsWs
  let yearDs := rest3.takeWhile isDig
  match monthFromWord word with
  | none => none
  | some m =>
    let d := digitsToNat dayDs
    let y := digitsToNat yearDs
    if 1 ≤ d ∧ d ≤ 31 then some (pad2 m ++ "/" ++ pad2 d ++ "/" ++ toString y) else none

/-- The per-full-match processing: prefer a numeric date token inside the
match, otherwise try a written date and convert it; a failed conversion
yields `none` and the caller moves on. -/
def processDateMatch (m : List Char) : Option String :=
  match firstMatchStr numericDatePat m with
  | some d => some (String.mk d)
  | none =>
    match firstMatchStr writtenDatePat m with
    | some w => jsWrittenToMDY w
    | none => none

/-- First full match that yields a date. -/
def firstDateFromMatches : List (List Char) → Option String
  | [] => none
  | m :: rest =>
    match processDateMatch m with
    | some d => some d
    | none => firstDateFromMatches rest

/-- The date waterfall: strategies in order; a strategy whose matches all
fail to convert leaves the result unset and the next strategy runs. -/
def extractDateStr (s : String) : Option String :=
  dateStrategyREs.foldl
    (fun acc re =>
      match acc with
      | some d => some d
      | none => firstDateFromMatches (allMatchesG re s.toList))
    none

/-! ### Merchant extraction -/

/-- `\w` membership: `[A-Za-z0-9_]`. -/
def isWordChar (c : Char) : Bool :=
  isDig c || ('a' ≤ c && c ≤ 'z') || ('A' ≤ c && c ≤ 'Z') || c = '_'

/-- The `excludePatterns` list of the source, in order. -/
def excludeREs : List RE :=
  [catr [.bos, strI "page", wsPlus, plusOf digitRE],
   catr [.bos, plusOf digitRE, .eos],
   catr [.bos, plusOf (.cls (fun c => isDig c || jsWs c || c = '-' || c = '(' || c = ')')), .eos],
   orr [strI "invoice", strI "bill", strI "receipt", strI "statement"],
   orr [strI "total", strI "subtotal", strI "tax", strI "amount", strI "due"],
   catr [.bos, orr [strI "to", strI "from", strI "attn", strI "attention"], chC ':'],
   catr [.bos, orr [strI "phone", strI "tel", strI "fax", strI "email", strI "address"]],
   catr [.bos, orr [strI "thank you", strI "thanks"]],
   catr [.bos, plusOf (.cls (fun c => !isWordChar c)), .eos]]

/-- `/^\d+[.,]\d+$/` (the extra "not just a number" check). -/
def numDotNumRE : RE :=
  catr [.bos, plusOf digitRE, .cls (fun c => c = '.' || c = ','), plusOf digitRE, .eos]

/-- The per-line admissibility test of merchant strategy 1. -/
def merchantLineOk (line : String) : Bool :=
  decide (3 ≤ line.length) && decide (line.length ≤ 60) &&
    !(excludeREs.any (fun r => reTest r line)) && !(reTest numDotNumRE line)

/-- `/LLC|Inc|Corp|Company|Co\.|Ltd|LTD|Construction|Services|Group/i`. -/
def companyIndRE : RE :=
  orr [strI "llc", strI "inc", strI "corp", strI "company", catr [strI "co", chC '.'],
       strI "ltd", strI "construction", strI "services", strI "group"]

/-- `/^[A-Z][a-z]/` (case-sensitive). -/
def properCapRE : RE :=
  catr [.bos, .cls (fun c => 'A' ≤ c && c ≤ 'Z'), .cls (fun c => 'a' ≤ c && c ≤ 'z')]

/-- Merchant strategy 1 over the first 8 non-blank lines: a company-indicator
line wins immediately; otherwise the first properly capitalized line is kept
but the scan continues. -/
def merchantHeaderScan : List String → Option String → Option String
  | [], pm => pm
  | l :: rest, pm =>
    let line := jsTrim l
    if merchantLineOk line then
      if reTest companyIndRE line then some line
      else if reTest properCapRE line && pm.isNone then merchantHeaderScan rest (some line)
      else merchantHeaderScan rest pm
    else merchantHeaderScan rest pm

/-- `/(?:bill\s*to|from|vendor)[\s:]*\n([^\n]+)/i`. -/
def billToRE : RE :=
  catr [orr [catr [strI "bill", wsStar, strI "to"], strI "from", strI "vendor"],
        .star wsColonCls, chC '\n', plusOf (.cls (fun c => c ≠ '\n'))]

/-- Group 1 of a `billToRE` match: the text after the last newline of the
match (the `[^\n]+` tail). -/
def afterLastNL (m : List Char) : List Char :=
  (m.reverse.takeWhile (fun c => c ≠ '\n')).reverse

/-- Merchant strategy 2: the line after a `bill to`/`from`/`vendor` label,
only if nothing was found in the header. -/
def merchantBillTo (s : String) (pm : Option String) : Option String :=
  match pm with
  | some _ => pm
  | none =>
    match firstMatchStr billToRE s.toList with
    | some m =>
      let cand := jsTrim (String.mk (afterLastNL m))
      if decide (3 ≤ cand.length) && decide (cand.length ≤ 60) then some cand else none
    | none => none

/-- `/(?:service\s*provider|provided\s*by|from|vendor)[\s:]*([^\n]+)/gi`. -/
def serviceLabelRE : RE :=
  catr [orr [catr [strI "service", wsStar, strI "provider"],
             catr [strI "provided", wsStar, strI "by"],
             strI "from", strI "vendor"],
        .star wsColonCls, plusOf (.cls (fun c => c ≠ '\n'))]

/-- `/starlink|spacex/i` (both as a scan pattern and as the inner test). -/
def starlinkRE : RE := orr [strI "starlink", strI "spacex"]

/-- `/internet|satellite|connectivity/i`. -/
def connectivityRE : RE := orr [strI "internet", strI "satellite", strI "connectivity"]

/-- `/birdseye|surveillance/i`. -/
def birdseyeRE : RE := orr [strI "birdseye", strI "surveillance"]

/-- The `servicePatterns` list of merchant strategy 3. -/
def servicePatternREs : List RE := [serviceLabelRE, starlinkRE, connectivityRE, birdseyeRE]

/-- Inner loop of merchant strategy 3 over one pattern's matches. -/
def serviceScanMatches : List (List Char) → Option String
  | [] => none
  | m :: rest =>
    if reTest starlinkRE (String.mk m) then some "Starlink"
    else if reTest birdseyeRE (String.mk m) then some "Birdseye Surveillance LLC"
    else serviceScanMatches rest

/-- Merchant strategy 3's scan over all service patterns. -/
def serviceScan (s : String) : Option String :=
  servicePatternREs.foldl
    (fun acc p =>
      match acc with
      | some m => some m
      | none => serviceScanMatches (allMatchesG p s.toList))
    none

/-- Guard of merchant strategy 3: no merchant yet, or one containing
`Chasco`. -/
def includesChasco : Option String → Bool
  | some s => containsSub s.toList "Chasco".toList
  | none => false

/-- Merchant strategy 3 (service-provider detection). -/
def merchantService (s : String) (pm : Option String) : Option String :=
  if pm.isNone || includesChasco pm then
    match serviceScan s with
    | some m => some m
    | none => pm
  else pm

/-- The final hard-coded special case: `birdseye` and `surveillance` both
present anywhere in the text. -/
def merchantSpecial (s : String) (pm : Option String) : Option String :=
  let low := jsToLower s
  if containsSub low.toList "birdseye".toList && containsSub low.toList "surveillance".toList
  then some "Birdseye Surveillance LLC" else pm

/-- `extractedText.split('\n').filter(line => line.trim().length > 0)`. -/
def nonBlankLines (s : String) : List String :=
  (linesOf s).filter (fun l => (jsTrim l).length ≠ 0)

/-- The whole merchant extraction, ending in `potentialMerchant || null`. -/
def extractMerchantName (s : String) : Option String :=
  let pm := merchantHeaderScan ((nonBlankLines s).take 8) none
  let pm := merchantBillTo s pm
  let pm := merchantService s pm
  let pm := merchantSpecial s pm
  match pm with
  | some m => if m = "" then none else some m
  | none => none

/-! ### The extraction pipeline -/

/-- The fields `processReceiptOCR` derives from the text. -/
structure ExtractionResult where
  extractedAmount : Option ℚ
  extractedDate : Option String
  extractedMerchant : Option String
  breakdown : AmountBreakdown
  deriving DecidableEq

/-- The extraction core of `processReceiptOCR`, applied to the already
obtained text. -/
def extractFields (s : String) : ExtractionResult :=
  let bd := runAmountStrategies s
  ⟨selectAmount bd, extractDateStr s, extractMerchantName s, bd⟩

/-- The PDF branch's pre-step: a PDF whose extracted text is empty or
shorter than 10 characters after trimming is replaced by the placeholder
string before extraction runs. -/
def pdfTextFallback (s : String) : String :=
  if s = "" ∨ (jsTrim s).length < 10 then "No extractable text found in PDF" else s

/-- `processReceiptOCR` on a PDF whose raw text layer is `s`. -/
def processReceiptPdf (s : String) : ExtractionResult := extractFields (pdfTextFallback s)

/-- `processReceiptOCR` on an image whose OCR text is `s` (no fallback). -/
def processReceiptImage (s : String) : ExtractionResult := extractFields s

/-! ### Data model of the match-scoring engine -/

/-- A ledger transaction as the scoring code reads it from the database. -/
structure Transaction where
  id : ℤ
  amount : ℚ
  transaction_date : Option String
  description : Option String
  deriving DecidableEq

/-- A receipt as the scoring code reads it (only the fields the engine
touches). -/
structure Receipt where
  id : ℤ
  extracted_amount : Option ℚ
  extracted_date : Option String
  extracted_merchant : Option String
  deriving DecidableEq

/-- A scored pairing, the object pushed into `matches` by
`findPotentialMatches`. -/
structure MatchCandidate where
  transaction : Transaction
  confidence : ℤ
  reasons : List String
  amountDiff : ℚ
  deriving DecidableEq

/-- JS truthiness of a nullable string column. -/
def strTruthy : Option String → Bool
  | none => false
  | some s => s ≠ ""

/-- `Math.round` on the nonnegative scores occurring here. -/
def jsRound (q : ℚ) : ℤ := ⌊q + 1 / 2⌋

/-! #### Calendar arithmetic (model of the `moment` date handling)

`moment(receipt.extracted_date, ['MM/DD/YYYY','MM/DD/YY','M/D/YYYY','M/D/YY'])`
and `moment(transaction.transaction_date)` both produce local midnights, so
`diff(..., 'days')` is the exact difference of day numbers.  Dates are mapped
to day numbers with the standard civil-calendar formula; parsing accepts the
shapes `moment` accepts for the well-formed date strings this system stores
(slash- or dash-separated month/day/year for receipts, ISO `YYYY-MM-DD` for
transactions), and rejects out-of-range fields, which `moment` marks
invalid. -/

def isLeapYear (y : Nat) : Bool := (y % 4 = 0 && y % 100 ≠ 0) || y % 400 = 0

def daysInMonth (y m : Nat) : Nat :=
  if m = 2 then (if isLeapYear y then 29 else 28)
  else if m = 4 ∨ m = 6 ∨ m = 9 ∨ m = 11 then 30
  else 31

/-- Day number of a civil date (days since 1970-01-01). -/
def rataDie (y m d : Nat) : ℤ :=
  let yy := if m ≤ 2 then y - 1 else y
  let era := yy / 400
  let yoe := yy % 400
  let mp := if 2 < m then m - 3 else m + 9
  let doy := (153 * mp + 2) / 5 + d - 1
  let doe := yoe * 365 + yoe / 4 - yoe / 100 + doy
  (era * 146097 + doe : ℤ) - 719468

/-- A string made of digits only, nonempty. -/
def allDigits (l : List Char) : Bool := !l.isEmpty && l.all isDig

/-- Two-digit years as `moment` maps them: `00-68` to the 2000s, `69-99` to
the 1900s. -/
def expandYear (ys : List Char) : Nat :=
  if ys.length = 2 then
    (if digitsToNat ys ≤ 68 then 2000 + digitsToNat ys else 1900 + digitsToNat ys)
  else digitsToNat ys

/-- `moment(s, ['MM/DD/YYYY','MM/DD/YY','M/D/YYYY','M/D/YY'])` followed by
`isValid()`, as a day number. -/
def parseReceiptDate (s : String) : Option ℤ :=
  match splitOnCharAux '/' (s.toList.map (fun c => if c = '-' then '/' else c)) [] with
  | [ms, ds, ys] =>
    let ml := ms.toList
    let dl := ds.toList
    let yl := ys.toList
    if allDigits ml && allDigits dl && allDigits yl &&
        decide (ml.length ≤ 2) && decide (dl.length ≤ 2) &&
        (decide (yl.length = 2) || decide (yl.length = 4)) then
      let m := digitsToNat ml
      let d := digitsToNat dl
      let y := expandYear yl
      if 1 ≤ m ∧ m ≤ 12 ∧ 1 ≤ d ∧ d ≤ daysInMonth y m then some (rataDie y m d) else none
    else none
  | _ => none

/-- `moment(s)` on the ISO `YYYY-MM-DD` strings the transactions store,
followed by `isValid()`, as a day number. -/
def parseTxDate (s : String) : Option ℤ :=
  match splitOnCharAux '-' s.toList [] with
  | [ys, ms, ds] =>
    let yl := ys.toList
    let ml := ms.toList
    let dl := ds.toList
    if allDigits yl && allDigits ml && allDigits dl &&
        decide (yl.length = 4) && decide (ml.length ≤ 2) && decide (dl.length ≤ 2) then
      let y := digitsToNat yl
      let m := digitsToNat ml
      let d := digitsToNat dl
      if 1 ≤ m ∧ m ≤ 12 ∧ 1 ≤ d ∧ d ≤ daysInMonth y m then some (rataDie y m d) else none
    else none
  | _ => none

/-! #### Per-transaction scoring

The source accumulates `confidence += ...` for the three independent factors
in sequence (amount, then date, then merchant); this equals the sum of the
three component functions below.  `reasons` strings accumulate in the same
order. -/

/-- The amount factor: breakpoints on the absolute amount difference. -/
def amountPts (d : ℚ) : ℚ :=
  if d = 0 then 60 else if d ≤ 1 then 40 else if d ≤ 5 then 20 else if d ≤ 10 then 10 else 0

/-- Reason strings of the amount factor. -/
def amountReasons (d : ℚ) : List String :=
  if d = 0 then ["Exact amount match"]
  else if d ≤ 1 then ["Very close amount match"]
  else if d ≤ 5 then ["Close amount match"]
  else if d ≤ 10 then ["Approximate amount match"]
  else []

/-- The date factor: only when both sides have a truthy, parseable date. -/
def datePts (r : Receipt) (t : Transaction) : ℚ :=
  if strTruthy r.extracted_date && strTruthy t.transaction_date then
    match r.extracted_date, t.transaction_date with
    | some rd, some td =>
      match parseReceiptDate rd, parseTxDate td with
      | some a, some b =>
        let dd := (a - b).natAbs
        if dd = 0 then 25 else if dd ≤ 1 then 15 else if dd ≤ 3 then 5 else 0
      | _, _ => 0
    | _, _ => 0
  else 0

/-- Reason strings of the date factor. -/
def dateReasons (r : Receipt) (t : Transaction) : List String :=
  if strTruthy r.extracted_date && strTruthy t.transaction_date then
    match r.extracted_date, t.transaction_date with
    | some rd, some td =>
      match parseReceiptDate rd, parseTxDate td with
      | some a, some b =>
        let dd := (a - b).natAbs
        if dd = 0 then ["Same date"]
        else if dd ≤ 1 then ["Within 1 day"]
        else if dd ≤ 3 then ["Within 3 days"]
        else []
      | _, _ => []
    | _, _ => []
  else []

/-- The stop list of the merchant factor. -/
def stopWords : List String := ["llc", "inc", "corp", "ltd", "company", "co"]

/-- A merchant token that enters numerator and denominator:
`word.length > 2` and not a stop word. -/
def isCountedWord (w : String) : Bool := decide (2 < w.length) && !(stopWords.contains w)

/-- `merchant.toLowerCase().split(/\s+/)`. -/
def merchantWordsOf (m : String) : List String := jsSplitWs (jsToLower m)

/-- The denominator tokens: counted words of the merchant name. -/
def eligibleWords (m : String) : List String := (merchantWordsOf m).filter isCountedWord

/-- The numerator tokens: counted words contained in the (lowercased)
transaction description. -/
def matchedWords (m desc : String) : List String :=
  (merchantWordsOf m).filter
    (fun w => isCountedWord w && containsSub (jsToLower desc).toList w.toList)

/-- Matched tokens of length at least 5 (the "significant" ones). -/
def significantMatchedWords (m desc : String) : List String :=
  (matchedWords m desc).filter (fun w => decide (5 ≤ w.length))

/-- The merchant factor: `min(base + bonus, 20)` when there is at least one
word match, `0` otherwise. -/
def merchantPts (r : Receipt) (t : Transaction) : ℚ :=
  if strTruthy r.extracted_merchant && strTruthy t.description then
    match r.extracted_merchant, t.description with
    | some m, some desc =>
      let wm := (matchedWords m desc).length
      if 0 < wm then
        min (((wm : ℚ) / ((eligibleWords m).length : ℚ)) * 15
              + 5 * ((significantMatchedWords m desc).length : ℚ)) 20
      else 0
    | _, _ => 0
  else 0

/-- Reason string of the merchant factor. -/
def merchantReasons (r : Receipt) (t : Transaction) : List String :=
  if strTruthy r.extracted_merchant && strTruthy t.description then
    match r.extracted_merchant, t.description with
    | some m, some desc =>
      let wm := (matchedWords m desc).length
      if 0 < wm then
        ["Merchant keywords match (" ++ toString wm ++ " words, "
          ++ toString ((significantMatchedWords m desc).length) ++ " significant)"]
      else []
    | _, _ => []
  else []

/-- One loop iteration of `findPotentialMatches`: score the transaction and
push a candidate when the raw confidence reaches the inclusion threshold 10.
The stored confidence is `Math.round` of the raw sum; `amountDiff` is
`Math.abs(Math.abs(transaction.amount) - receipt.extracted_amount)`. -/
def scoreTransaction (rAmt : ℚ) (r : Receipt) (t : Transaction) : Option MatchCandidate :=
  let amountDiff := |(|t.amount|) - rAmt|
  let confidence := amountPts amountDiff + datePts r t + merchantPts r t
  if 10 ≤ confidence then
    some { transaction := t, confidence := jsRound confidence,
           reasons := amountReasons amountDiff ++ dateReasons r t ++ merchantReasons r t,
           amountDiff := amountDiff }
  else none

/-- The scored candidates before sorting, in input-transaction order.  The
guard mirrors `!receipt.extracted_amount || !transactions ||
transactions.length === 0` (a zero amount is falsy in JS). -/
def scoredCandidates (r : Receipt) (ts : List Transaction) : List MatchCandidate :=
  match r.extracted_amount with
  | none => []
  | some a => if a = 0 ∨ ts = [] then [] else ts.filterMap (scoreTransaction a r)

/-- Insertion preserving descending confidence; the inserted element came
earlier in the input than everything in the list, so on a tie it goes
first. -/
def insertCand (x : MatchCandidate) : List MatchCandidate → List MatchCandidate
  | [] => [x]
  | y :: l => if y.confidence ≤ x.confidence then x :: y :: l else y :: insertCand x l

/-- The stable descending sort by confidence, the behavior of
`matches.sort((a, b) => b.confidence - a.confidence)` (ECMAScript sorts are
stable, and a stable sorted permutation is unique). -/
def sortCands : List MatchCandidate → List MatchCandidate
  | [] => []
  | x :: l => insertCand x (sortCands l)

/-- `findPotentialMatches` (identical copies in the matches route and the
receipts route). -/
def findPotentialMatches (r : Receipt) (ts : List Transaction) : List MatchCandidate :=
  sortCands (scoredCandidates r ts)

/-! ### Auto-match policy -/

/-- A row written by `INSERT OR REPLACE INTO matches (transaction_id,
receipt_id, match_confidence, match_status, user_confirmed)`. -/
structure UpsertRow where
  transactionId : ℤ
  receiptId : ℤ
  confidence : ℤ
  status : String
  userConfirmed : Bool
  deriving DecidableEq

/-- `req.body.threshold || 70`: a missing (or falsy) threshold defaults to
70. -/
def effThreshold : Option ℚ → ℚ
  | none => 70
  | some v => if v = 0 then 70 else v

/-- The per-receipt decision shared by `triggerAutoMatchForReceipt` and the
bulk route: if the top-ranked candidate reaches the threshold, upsert an
`auto_matched`, non-user-confirmed row for that transaction and receipt;
otherwise do nothing. -/
def autoMatchDecision (receiptId : ℤ) (cands : List MatchCandidate) (thr : ℚ) :
    Option UpsertRow :=
  match cands with
  | [] => none
  | best :: _ =>
    if thr ≤ (best.confidence : ℚ) then
      some ⟨best.transaction.id, receiptId, best.confidence, "auto_matched", false⟩
    else none

/-- The auto-match policy for one receipt against a transaction pool. -/
def autoMatchForReceipt (r : Receipt) (ts : List Transaction) (thr : ℚ) : Option UpsertRow :=
  autoMatchDecision r.id (findPotentialMatches r ts) thr

/-- The upserts issued by the bulk `/auto-match` loop, in receipt order. -/
def issuedUpserts (receipts : List Receipt) (ts : List Transaction) (thr : ℚ) :
    List UpsertRow :=
  receipts.filterMap (fun r => autoMatchForReceipt r ts thr)

/-! #### Completion model of the bulk route

`stmt.run(..., cb)` queues the upsert; node-sqlite3 serializes all operations
of one prepared statement, so every run callback (which is where
`autoMatched++` happens) executes before the `stmt.finalize` callback (which
is where the response samples `autoMatched`).  The model: a queue of
completion events, one per issued upsert, each carrying its success flag, is
processed in any order, followed by the finalize event that samples the
counter. -/

inductive DbEvent where
  | upsert (row : UpsertRow) (ok : Bool)
  | finalize
  deriving DecidableEq

/-- The completion events of the issued upserts; `ok i` is the success of the
`i`-th issued upsert. -/
def completionEvents (rows : List UpsertRow) (ok : Nat → Bool) : List DbEvent :=
  rows.enum.map (fun p => DbEvent.upsert p.2 (ok p.1))

/-- Processing the queue: each successful upsert callback increments the
counter; the finalize callback samples it. -/
def runQueue : List DbEvent → Nat → Option Nat
  | [], _ => none
  | DbEvent.upsert _ ok :: es, c => runQueue es (if ok then c + 1 else c)
  | DbEvent.finalize :: _, c => some c

/-- An upsert completion that succeeded. -/
def isSuccess : DbEvent → Bool
  | DbEvent.upsert _ true => true
  | _ => false

/-- The number of upserts that completed successfully. -/
def successCount (rows : List UpsertRow) (ok : Nat → Bool) : Nat :=
  (completionEvents rows ok).countP isSuccess

/-! ### Concrete values used by the witnesses -/

/-- A transaction with a negative (charge) amount whose description names the
merchant. -/
def exTx : Transaction :=
  { id := 1, amount := -100, transaction_date := some "2025-07-22",
    description := some "OPENAI subscription" }

/-- A receipt that agrees with `exTx` on amount, date and merchant. -/
def exReceipt : Receipt :=
  { id := 5, extracted_amount := some 100, extracted_date := some "07/22/2025",
    extracted_merchant := some "Openai" }

/-- The candidate `findPotentialMatches exReceipt [exTx]` produces:
60 + 25 + 20 = 105 confidence. -/
def exCand : MatchCandidate :=
  { transaction := exTx, confidence := 105,
    reasons := ["Exact amount match", "Same date",
                "Merchant keywords match (1 words, 1 significant)"],
    amountDiff := 0 }

/-- The row the auto-match policy upserts for `exReceipt` and `exTx`. -/
def exRow : UpsertRow :=
  { transactionId := 1, receiptId := 5, confidence := 105,
    status := "auto_matched", userConfirmed := false }

/-- A receipt with no extracted amount. -/
def noAmountReceipt : Receipt :=
  { id := 7, extracted_amount := none, extracted_date := none, extracted_merchant := none }

/-- The multi-line-total text of C7: a bare `Total` line, the amount on the
next line, and a later flat `TOTAL:` label. -/
def c7Text : String := "Total\n$4,763.00\nTOTAL: 12.50"

/-- The concatenated written-date text of C8. -/
def c8Text : String := "Date paidJuly 22, 2025"

/-- An outcome environment in which every upsert succeeds. -/
def okAll : Nat → Bool := fun _ => true

/-! ### Helper lemmas -/

theorem mem_insertCand {a x : MatchCandidate} {l : List MatchCandidate} :
    a ∈ insertCand x l ↔ a = x ∨ a ∈ l := by
  induction l with
  | nil => simp [insertCand]
  | cons y l ih =>
    rw [insertCand]
    split
    · simp [List.mem_cons]
    · simp [List.mem_cons, ih, or_left_comm]

theorem mem_sortCands {a : MatchCandidate} {l : List MatchCandidate} :
    a ∈ sortCands l ↔ a ∈ l := by
  induction l with
  | nil => simp [sortCands]
  | cons x l ih => rw [sortCands, mem_insertCand]; simp [List.mem_cons, ih]

theorem pairwise_insertCand {x : MatchCandidate} {l : List MatchCandidate}
    (h : l.Pairwise (fun a b => b.confidence ≤ a.confidence)) :
    (insertCand x l).Pairwise (fun a b => b.confidence ≤ a.confidence) := by
  induction l with
  | nil => simp [insertCand]
  | cons y l ih =>
    rw [insertCand]
    rcases List.pairwise_cons.mp h with ⟨hy, hl⟩
    split
    next hc =>
      refine List.pairwise_cons.mpr ⟨?_, h⟩
      intro b hb
      rcases List.mem_cons.mp hb with rfl | hbl
      · exact hc
      · exact le_trans (hy b hbl) hc
    next hc =>
      refine List.pairwise_cons.mpr ⟨?_, ih hl⟩
      intro b hb
      rcases mem_insertCand.mp hb with rfl | hbl
      · exact le_of_not_le hc
      · exact hy b hbl

theorem pairwise_sortCands : ∀ l : List MatchCandidate,
    (sortCands l).Pairwise (fun a b => b.confidence ≤ a.confidence)
  | [] => List.Pairwise.nil
  | _ :: l => pairwise_insertCand (pairwise_sortCands l)

theorem filter_insertCand (x : MatchCandidate) (l : List MatchCandidate) (k : ℤ) :
    (insertCand x l).filter (fun c => decide (c.confidence = k))
      = (x :: l).filter (fun c => decide (c.confidence = k)) := by
  induction l with
  | nil => rfl
  | cons y l ih =>
    rw [insertCand]
    split
    next => rfl
    next hc =>
      have hyx : x.confidence < y.confidence := not_le.mp hc
      by_cases hx : x.confidence = k
      · by_cases hy : y.confidence = k
        · exact absurd hyx (by rw [hx, hy]; exact lt_irrefl k)
        · simp [List.filter_cons, ih, hx, hy]
      · by_cases hy : y.confidence = k <;> simp [List.filter_cons, ih, hx, hy]

theorem filter_sortCands (l : List MatchCandidate) (k : ℤ) :
    (sortCands l).filter (fun c => decide (c.confidence = k))
      = l.filter (fun c => decide (c.confidence = k)) := by
  induction l with
  | nil => rfl
  | cons x l ih =>
    rw [sortCands, filter_insertCand]
    simp only [List.filter_cons, ih]

theorem scoreTransaction_some {a : ℚ} {r : Receipt} {t : Transaction} {c : MatchCandidate}
    (h : scoreTransaction a r t = some c) :
    10 ≤ amountPts (|(|t.amount|) - a|) + datePts r t + merchantPts r t
    ∧ c.transaction = t
    ∧ c.confidence = jsRound (amountPts (|(|t.amount|) - a|) + datePts r t + merchantPts r t)
    ∧ c.amountDiff = |(|t.amount|) - a| := by
  simp only [scoreTransaction] at h
  split at h
  next hge =>
    cases h
    exact ⟨hge, rfl, rfl, rfl⟩
  next => cases h

theorem mem_scoredCandidates {r : Receipt} {ts : List Transaction} {c : MatchCandidate}
    (h : c ∈ scoredCandidates r ts) :
    ∃ a t, r.extracted_amount = some a ∧ t ∈ ts ∧ scoreTransaction a r t = some c := by
  unfold scoredCandidates at h
  split at h
  · cases h
  next a ha =>
    split at h
    · cases h
    · rcases List.mem_filterMap.mp h with ⟨t, ht, hsc⟩
      exact ⟨a, t, ha, ht, hsc⟩

theorem amountPts_le (d : ℚ) : amountPts d ≤ 60 := by
  unfold amountPts; split_ifs <;> norm_num

theorem datePts_le (r : Receipt) (t : Transaction) : datePts r t ≤ 25 := by
  unfold datePts
  repeat' split
  all_goals try norm_num
  all_goals split_ifs <;> norm_num

theorem merchantPts_le (r : Receipt) (t : Transaction) : merchantPts r t ≤ 20 := by
  unfold merchantPts
  repeat' split
  all_goals try norm_num
  all_goals split_ifs
  all_goals norm_num

theorem jsRound_lb {q : ℚ} {n : ℤ} (h : (n : ℚ) ≤ q) : n ≤ jsRound q := by
  unfold jsRound
  exact Int.le_floor.mpr (by linarith)

theorem jsRound_ub {q : ℚ} {n : ℤ} (h : q ≤ (n : ℚ)) : jsRound q ≤ n := by
  unfold jsRound
  have hlt : (⌊q + 1 / 2⌋ : ℤ) < n + 1 := Int.floor_lt.mpr (by push_cast; linarith)
  omega

theorem map_transaction_sublist (a : ℚ) (r : Receipt) :
    ∀ ts : List Transaction,
      ((ts.filterMap (scoreTransaction a r)).map MatchCandidate.transaction).Sublist ts
  | [] => List.Sublist.refl []
  | t :: ts => by
    cases h : scoreTransaction a r t with
    | none =>
      rw [List.filterMap_cons_none h]
      exact List.Sublist.cons t (map_transaction_sublist a r ts)
    | some c =>
      rw [List.filterMap_cons_some h, List.map_cons, (scoreTransaction_some h).2.1]
      exact List.Sublist.cons₂ t (map_transaction_sublist a r ts)

theorem scored_sublist (r : Receipt) (ts : List Transaction) :
    ((scoredCandidates r ts).map MatchCandidate.transaction).Sublist ts := by
  unfold scoredCandidates
  split
  · simp
  · split
    · simp
    · exact map_transaction_sublist _ _ ts

theorem runQueue_upserts : ∀ (evs : List DbEvent) (c : Nat),
    (∀ e ∈ evs, e ≠ DbEvent.finalize) →
    runQueue (evs ++ [DbEvent.finalize]) c = some (c + evs.countP isSuccess) := by
  intro evs
  induction evs with
  | nil => intro c _; simp [runQueue]
  | cons e es ih =>
    intro c hne
    cases e with
    | finalize => exact absurd rfl (hne _ (List.mem_cons_self _ _))
    | upsert row ok =>
      have h2 : ∀ e ∈ es, e ≠ DbEvent.finalize := fun e he => hne e (List.mem_cons_of_mem _ he)
      rw [List.cons_append]
      show runQueue (es ++ [DbEvent.finalize]) (if ok then c + 1 else c) = _
      rw [ih _ h2, List.countP_cons]
      cases ok
      · simp [isSuccess]
      · simp [isSuccess]
        omega

theorem autoMatch_fires {r : Receipt} {ts : List Transaction} {thr : ℚ}
    {best : MatchCandidate} {rest : List MatchCandidate}
    (hfp : findPotentialMatches r ts = best :: rest)
    (hthr : thr ≤ (best.confidence : ℚ)) :
    autoMatchForReceipt r ts thr
      = some ⟨best.transaction.id, r.id, best.confidence, "auto_matched", false⟩ := by
  unfold autoMatchForReceipt autoMatchDecision
  rw [hfp]
  exact if_pos hthr

theorem length_filter_and_le (l : List String) (p q : String → Bool) :
    (l.filter (fun w => p w && q w)).length ≤ (l.filter p).length := by
  induction l with
  | nil => simp
  | cons a l ih =>
    by_cases hp : p a
    · by_cases hq : q a <;> simp [List.filter_cons, hp, hq] <;> omega
    · simp [List.filter_cons, hp]; omega

/-! ### The claims -/

set_option maxRecDepth 4000

/-- C1: for every receipt amount and transaction, the engine computes the
amount difference as `|` `|transaction.amount|` `- receipt.extracted_amount|`
(it is the `amountDiff` field of every candidate it emits) and awards amount
points exactly by the breakpoints: difference 0 gives 60, difference in
(0, 1] gives 40, in (1, 5] gives 20, in (5, 10] gives 10, above 10 nothing
(the transaction can still reach the inclusion threshold through the date and
merchant terms of the same sum); in particular a transaction amount of
-100.00 against a receipt amount of 100.00 yields `amountDiff` 0 and 60
points. -/
theorem c1_amount_scoring :
    (∀ (a : ℚ) (r : Receipt) (t : Transaction) (c : MatchCandidate),
        scoreTransaction a r t = some c → c.amountDiff = |(|t.amount|) - a|)
    ∧ (∀ d : ℚ,
        (d = 0 → amountPts d = 60) ∧
        (0 < d → d ≤ 1 → amountPts d = 40) ∧
        (1 < d → d ≤ 5 → amountPts d = 20) ∧
        (5 < d → d ≤ 10 → amountPts d = 10) ∧
        (10 < d → amountPts d = 0))
    ∧ (|(|(-100 : ℚ)|) - 100| = 0 ∧ amountPts (|(|(-100 : ℚ)|) - 100|) = 60
        ∧ (findPotentialMatches exReceipt [exTx]).map MatchCandidate.amountDiff = [0]) := by
  refine ⟨fun a r t c h => (scoreTransaction_some h).2.2.2, fun d => ?_, ?_, ?_,
    by with_unfolding_all decide⟩
  · unfold amountPts
    refine ⟨fun h => ?_, fun h1 h2 => ?_, fun h1 h2 => ?_, fun h1 h2 => ?_, fun h1 => ?_⟩ <;>
      split_ifs <;> first | rfl | linarith
  · norm_num
  · rw [show |(|(-100 : ℚ)|) - 100| = 0 by norm_num]
    unfold amountPts
    norm_num

/-- Witness for C1 at the concrete pair `exReceipt`/`exTx` (transaction
amount -100, receipt amount 100). -/
theorem c1_amount_scoring_witness :
    scoreTransaction 100 exReceipt exTx = some exCand
      ∧ exCand.amountDiff = |(|exTx.amount|) - 100| :=
  ⟨by with_unfolding_all decide,
   c1_amount_scoring.1 100 exReceipt exTx exCand (by with_unfolding_all decide)⟩

/-- C2: the auto-match policy upserts a row exactly when the top-ranked
candidate reaches the threshold (default 70 when the caller sends none).
Forward direction: whenever the top-ranked candidate's confidence reaches the
threshold, a row IS upserted, for exactly (that candidate's transaction, this
receipt), with the candidate's confidence, status `auto_matched` and
user-confirmed false — stated both for the head of the candidate list and,
via sortedness, whenever any candidate reaches the threshold.  Converse
direction: any produced row has those fields and its candidate is maximal.
When every candidate is below the threshold no row is produced (and no error
path exists: the result is simply `none`). -/
theorem c2_auto_match_policy :
    effThreshold none = 70
    ∧ (∀ (r : Receipt) (ts : List Transaction) (thr : ℚ) (row : UpsertRow),
        autoMatchForReceipt r ts thr = some row →
          row.status = "auto_matched" ∧ row.userConfirmed = false ∧ row.receiptId = r.id ∧
          ∃ c ∈ findPotentialMatches r ts,
            row.transactionId = c.transaction.id ∧ row.confidence = c.confidence ∧
            thr ≤ (c.confidence : ℚ) ∧
            ∀ c' ∈ findPotentialMatches r ts, c'.confidence ≤ c.confidence)
    ∧ (∀ (r : Receipt) (ts : List Transaction) (thr : ℚ),
        (∀ c ∈ findPotentialMatches r ts, (c.confidence : ℚ) < thr) →
          autoMatchForReceipt r ts thr = none)
    ∧ (∀ (r : Receipt) (ts : List Transaction) (thr : ℚ) (best : MatchCandidate)
          (rest : List MatchCandidate),
        findPotentialMatches r ts = best :: rest → thr ≤ (best.confidence : ℚ) →
          autoMatchForReceipt r ts thr
            = some ⟨best.transaction.id, r.id, best.confidence, "auto_matched", false⟩)
    ∧ (∀ (r : Receipt) (ts : List Transaction) (thr : ℚ),
        (∃ c ∈ findPotentialMatches r ts, thr ≤ (c.confidence : ℚ)) →
          ∃ best rest, findPotentialMatches r ts = best :: rest
            ∧ thr ≤ (best.confidence : ℚ)
            ∧ autoMatchForReceipt r ts thr
                = some ⟨best.transaction.id, r.id, best.confidence, "auto_matched", false⟩) := by
  refine ⟨rfl, ?_, ?_, ?_, ?_⟩
  · intro r ts thr row h
    unfold autoMatchForReceipt autoMatchDecision at h
    cases hfp : findPotentialMatches r ts with
    | nil => rw [hfp] at h; cases h
    | cons best rest =>
      rw [hfp] at h
      replace h :
          (if thr ≤ (best.confidence : ℚ) then
            some (⟨best.transaction.id, r.id, best.confidence, "auto_matched", false⟩ : UpsertRow)
           else none) = some row := h
      by_cases hthr : thr ≤ (best.confidence : ℚ)
      · rw [if_pos hthr] at h
        injection h with h
        subst h
        have hp : (best :: rest).Pairwise (fun a b => b.confidence ≤ a.confidence) :=
          hfp ▸ pairwise_sortCands (scoredCandidates r ts)
        refine ⟨rfl, rfl, rfl, best, ?_, rfl, rfl, hthr, ?_⟩
        · exact List.mem_cons_self _ _
        · intro c' hc'
          rcases List.mem_cons.mp hc' with rfl | h'
          · exact le_refl _
          · exact (List.pairwise_cons.mp hp).1 c' h'
      · rw [if_neg hthr] at h
        cases h
  · intro r ts thr hall
    unfold autoMatchForReceipt autoMatchDecision
    cases hfp : findPotentialMatches r ts with
    | nil => rfl
    | cons best rest =>
      have hb : (best.confidence : ℚ) < thr :=
        hall best (by rw [hfp]; exact List.mem_cons_self _ _)
      exact if_neg (not_le.mpr hb)
  · intro r ts thr best rest hfp hthr
    exact autoMatch_fires hfp hthr
  · intro r ts thr hex
    rcases hex with ⟨c, hc, hthr⟩
    cases hfp : findPotentialMatches r ts with
    | nil => rw [hfp] at hc; cases hc
    | cons best rest =>
      have hp : (best :: rest).Pairwise (fun a b => b.confidence ≤ a.confidence) :=
        hfp ▸ pairwise_sortCands (scoredCandidates r ts)
      rw [hfp] at hc
      have hcle : c.confidence ≤ best.confidence := by
        rcases List.mem_cons.mp hc with rfl | h'
        · exact le_refl _
        · exact (List.pairwise_cons.mp hp).1 c h'
      have hbt : thr ≤ (best.confidence : ℚ) :=
        le_trans hthr (by exact_mod_cast hcle)
      exact ⟨best, rest, rfl, hbt, autoMatch_fires hfp hbt⟩

/-- Witness for C2: the concrete receipt/transaction pair is auto-matched at
the default threshold 70, as row `exRow`: the forward direction produces the
row from the top-ranked candidate `exCand`, and the converse direction
recovers its fields. -/
theorem c2_auto_match_policy_witness :
    autoMatchForReceipt exReceipt [exTx] 70 = some exRow
      ∧ exRow.status = "auto_matched" ∧ exRow.userConfirmed = false ∧ exRow.receiptId = 5 :=
  ⟨c2_auto_match_policy.2.2.2.1 exReceipt [exTx] 70 exCand []
      (by with_unfolding_all decide) (by with_unfolding_all decide),
   (c2_auto_match_policy.2.1 exReceipt [exTx] 70 exRow (by with_unfolding_all decide)).1,
   (c2_auto_match_policy.2.1 exReceipt [exTx] 70 exRow (by with_unfolding_all decide)).2.1,
   by with_unfolding_all decide⟩

/-- C3: a receipt whose extracted amount is null produces an empty candidate
list for every transaction pool, and an empty transaction pool produces an
empty candidate list for every receipt; both are ordinary returns, not
errors. -/
theorem c3_scoring_ineligible :
    (∀ (r : Receipt) (ts : List Transaction),
        r.extracted_amount = none → findPotentialMatches r ts = [])
    ∧ (∀ r : Receipt, findPotentialMatches r [] = []) := by
  constructor
  · intro r ts h
    unfold findPotentialMatches scoredCandidates
    rw [h]
    rfl
  · intro r
    unfold findPotentialMatches scoredCandidates
    cases r.extracted_amount with
    | none => rfl
    | some a => simp [sortCands]

/-- Witness for C3 at the concrete amount-less receipt. -/
theorem c3_scoring_ineligible_witness :
    noAmountReceipt.extracted_amount = none
      ∧ findPotentialMatches noAmountReceipt [exTx] = [] :=
  ⟨rfl, c3_scoring_ineligible.1 noAmountReceipt [exTx] rfl⟩

/-- C4: every candidate the engine returns has an integer confidence between
the inclusion threshold 10 and 105 = 60 + 25 + 20 (the merchant term is
capped at 20 by the `min`); and the engine does not clamp to 100: the
concrete pair `exReceipt`/`exTx` comes back with confidence 105. -/
theorem c4_confidence_bounds :
    (∀ (r : Receipt) (ts : List Transaction) (c : MatchCandidate),
        c ∈ findPotentialMatches r ts → 10 ≤ c.confidence ∧ c.confidence ≤ 105)
    ∧ (findPotentialMatches exReceipt [exTx]).map MatchCandidate.confidence = [105] := by
  constructor
  · intro r ts c hc
    rcases mem_scoredCandidates (mem_sortCands.mp hc) with ⟨a, t, _, _, hsc⟩
    rcases scoreTransaction_some hsc with ⟨hge, _, hconf, _⟩
    have hub : amountPts (|(|t.amount|) - a|) + datePts r t + merchantPts r t ≤ 105 := by
      have h1 := amountPts_le (|(|t.amount|) - a|)
      have h2 := datePts_le r t
      have h3 := merchantPts_le r t
      linarith
    constructor
    · rw [hconf]; exact jsRound_lb (by push_cast; linarith)
    · rw [hconf]; exact jsRound_ub (by push_cast; linarith)
  · with_unfolding_all decide

/-- Witness for C4 at the concrete candidate `exCand` (whose confidence 105
also exceeds 100, showing the absence of clamping). -/
theorem c4_confidence_bounds_witness :
    exCand ∈ findPotentialMatches exReceipt [exTx]
      ∧ 10 ≤ exCand.confidence ∧ exCand.confidence ≤ 105 :=
  ⟨by with_unfolding_all decide, c4_confidence_bounds.1 exReceipt [exTx] exCand (by with_unfolding_all decide)⟩

/-- C5: the candidate list is sorted by confidence descending; restricted to
any fixed confidence value it equals the unsorted scored list (which scores
the transactions in input order), so equal-confidence candidates keep the
relative order of their transactions in the input (the sort is stable); and
the scored list's transactions form a sublist of the input pool. -/
theorem c5_sorted_stable :
    ∀ (r : Receipt) (ts : List Transaction),
      (findPotentialMatches r ts).Pairwise (fun a b => b.confidence ≤ a.confidence)
      ∧ (∀ k : ℤ,
          (findPotentialMatches r ts).filter (fun c => decide (c.confidence = k))
            = (scoredCandidates r ts).filter (fun c => decide (c.confidence = k)))
      ∧ ((scoredCandidates r ts).map MatchCandidate.transaction).Sublist ts := by
  intro r ts
  exact ⟨pairwise_sortCands (scoredCandidates r ts),
         fun k => filter_sortCands (scoredCandidates r ts) k,
         scored_sublist r ts⟩

/-- C6: evaluation at the failing input.  A PDF with an empty (or
sub-10-character) text layer is replaced by the placeholder
`"No extractable text found in PDF"`, and the merchant extractor then picks
that placeholder line up as the merchant name, so the extracted merchant is
NOT null (amount and date are); on the image path an empty text does give all
three fields null. -/
theorem c6_pdf_placeholder :
    pdfTextFallback "" = "No extractable text found in PDF"
    ∧ (processReceiptPdf "").extractedMerchant = some "No extractable text found in PDF"
    ∧ (processReceiptPdf "").extractedAmount = none
    ∧ (processReceiptPdf "").extractedDate = none
    ∧ processReceiptImage "" = ⟨none, none, none, emptyBreakdown⟩ := by
  refine ⟨rfl, by decide, by decide, by decide, by decide⟩

/-- C7: on the C7 text the multi-line strategy extracts 4763 as the total and
it is the selected amount, even though a flat `TOTAL: 12.50` label occurs
later; and in general strategy 2 runs regardless of the breakdown state and
overwrites any prior total whenever its scan finds a value. -/
theorem c7_multiline_total :
    selectAmount (runAmountStrategies c7Text) = some 4763
    ∧ (runAmountStrategies c7Text).total = some 4763
    ∧ multiLineTotalScan (linesOf c7Text) = some 4763
    ∧ (∀ (s : String) (bd : AmountBreakdown) (v : ℚ),
        multiLineTotalScan (linesOf s) = some v → (applyS2 s bd).total = some v) := by
  refine ⟨by decide, by decide, by decide, ?_⟩
  intro s bd v h
  unfold applyS2
  rw [h]

/-- Witness for C7: strategy 2 overwrites a breakdown that already holds the
flat total 12.50. -/
theorem c7_multiline_total_witness :
    (applyS2 c7Text ⟨none, none, some (25 / 2 : ℚ), none⟩).total = some 4763 :=
  c7_multiline_total.2.2.2 c7Text ⟨none, none, some (25 / 2 : ℚ), none⟩ 4763 (by decide)

/-- C8: the text `"Date paidJuly 22, 2025"` extracts the date
`"07/22/2025"`; the first (label-anchored) strategy does match the text, but
its written-date conversion fails (`"paidJuly"` is no month) and is treated
as no match, so later strategies keep searching until the bare month-name
strategy succeeds. -/
theorem c8_written_date :
    extractDateStr c8Text = some "07/22/2025"
    ∧ allMatchesG d1RE c8Text.toList ≠ []
    ∧ firstDateFromMatches (allMatchesG d1RE c8Text.toList) = none := by
  refine ⟨by decide, by decide, by decide⟩

/-- C9: the matched counter is incremented only by upsert completion events
and the response samples it only at the finalize event, which node-sqlite3
runs after all completions of the same prepared statement; hence for every
order in which the issued upserts complete before the finalize, the reported
count equals the number of upserts that completed successfully. -/
theorem c9_matched_count_barrier :
    ∀ (receipts : List Receipt) (ts : List Transaction) (thr : ℚ) (ok : Nat → Bool)
      (evs : List DbEvent),
      evs.Perm (completionEvents (issuedUpserts receipts ts thr) ok) →
      runQueue (evs ++ [DbEvent.finalize]) 0
        = some (successCount (issuedUpserts receipts ts thr) ok) := by
  intro receipts ts thr ok evs hperm
  have hne : ∀ e ∈ evs, e ≠ DbEvent.finalize := by
    intro e he
    have hm : e ∈ completionEvents (issuedUpserts receipts ts thr) ok := hperm.mem_iff.mp he
    rcases List.mem_map.mp hm with ⟨p, _, rfl⟩
    simp
  rw [runQueue_upserts evs 0 hne, hperm.countP_eq isSuccess, Nat.zero_add]
  rfl

/-- Witness for C9: the concrete single-receipt pool, with every upsert
succeeding, reports exactly the success count. -/
theorem c9_matched_count_barrier_witness :
    runQueue (completionEvents (issuedUpserts [exReceipt] [exTx] 70) okAll
        ++ [DbEvent.finalize]) 0
      = some (successCount (issuedUpserts [exReceipt] [exTx] 70) okAll) :=
  c9_matched_count_barrier [exReceipt] [exTx] 70 okAll _ (List.Perm.refl _)

/-- C10: whenever the merchant word-match count is positive, the denominator
of the base score (the number of merchant tokens longer than 2 characters and
outside the stop list) is at least 1, because every matched word is itself
such a token; the division in `merchantPts` is therefore never over a zero
denominator and the score is well defined. -/
theorem c10_merchant_denominator :
    ∀ m desc : String,
      0 < (matchedWords m desc).length → 1 ≤ (eligibleWords m).length := by
  intro m desc h
  have hle : (matchedWords m desc).length ≤ (eligibleWords m).length :=
    length_filter_and_le (merchantWordsOf m) isCountedWord
      (fun w => containsSub (jsToLower desc).toList w.toList)
  omega

/-- Witness for C10 at the concrete merchant name and description. -/
theorem c10_merchant_denominator_witness :
    0 < (matchedWords "Openai" "OPENAI subscription").length
      ∧ 1 ≤ (eligibleWords "Openai").length :=
  ⟨by with_unfolding_all decide, c10_merchant_denominator "Openai" "OPENAI subscription" (by with_unfolding_all decide)⟩

end Expense3
